import Mathlib

/-!
# gollum: rotating file state, clear formatter, regexp filter

A shallow embedding of `FileState` and `FileRotateConfig` (producer/filestate.go),
`Clear` (format/clear.go) and `RegExp` (filter/regexp.go) with the collaborators
they call, followed by theorems about `NeedsRotate`, `Flush`, `Close`, `Configure`,
`Modulate` and `Accepts`.

Conventions of the embedding

* Go `int`, `int64` and `time.Duration` values are `Int`; the functions below do
  no arithmetic on them except where stated, and the one place where the Go
  library clamps to the 64-bit range (`Time.Sub`) clamps here too.
* A `time.Time` is an instant (nanoseconds since the Unix epoch, one timeline for
  the wall and the monotonic clock) together with its `Location`.
* A `Location` is a zone table: the offset in force at first and the transitions
  to other offsets in ascending order; `time.Date` and the calendar fields of a
  `Time` look the offset up in it as the Go library does.
* A calendar day is a day number; the triple year, month, day names the same day.
* Each reading of the clock (`time.Now()`, also the one inside `time.Since`) is an
  explicit argument.
* Effects on the collaborators (writer, fallback sink) are recorded as a list of
  `Event`s in program order.
-/

namespace Gollum

/-! ## package time (Go standard library), as far as filestate.go uses it -/

/-- Duration of one second in nanoseconds (`time.Second`). -/
def Second : Int := 1000000000

/-- Duration of one minute in nanoseconds (`time.Minute`). -/
def Minute : Int := 60 * Second

/-- Smallest `time.Duration`, the least int64. -/
def minDuration : Int := -9223372036854775808

/-- Largest `time.Duration`, the greatest int64. -/
def maxDuration : Int := 9223372036854775807

/-- Least int64, the bound `alpha` of package time: start of the first period of a
zone. -/
def alpha : Int := -9223372036854775808

/-- Greatest int64, the bound `omega` of package time: end of the last period of a
zone. -/
def omega : Int := 9223372036854775807

/-- One transition of a zone (`zoneTrans` with the offset of the zone it leads to):
from the Unix second `when` on, `offset` seconds east of UTC are in force. -/
structure ZoneTrans where
  when : Int
  offset : Int
  deriving DecidableEq, Repr

/-- A time zone (`time.Location`): the offset in force before the first transition,
in seconds east of UTC, and the transitions in ascending order of `when`, as the
zone database has them. A zone without daylight saving has no transitions. -/
structure Location where
  offset : Int
  tx : List ZoneTrans
  deriving DecidableEq, Repr

/-- What `Location.lookup` returns: the offset in force and the period
`start ≤ sec < stop` (Go: `end`) of Unix seconds over which it is in force. -/
structure ZonePeriod where
  offset : Int
  start : Int
  stop : Int
  deriving DecidableEq, Repr

/-- Search of `Location.lookup` for the last transition not after `sec`, walking
the transitions in their order; `offset` and `start` are those of the period
reached so far. (Go searches the ascending table by bisection, with this result.) -/
def Location.scan (sec : Int) : Int → Int → List ZoneTrans → ZonePeriod
  | offset, start, [] => ⟨offset, start, omega⟩
  | offset, start, t :: rest =>
    if sec < t.when then ⟨offset, start, t.when⟩
    else Location.scan sec t.offset t.when rest

/-- Method `l.lookup(sec)`: the zone in force at the Unix second `sec`. -/
def Location.lookup (l : Location) (sec : Int) : ZonePeriod :=
  Location.scan sec l.offset alpha l.tx

/-- The offsets a zone has: the first one and those of its transitions. -/
def Location.offsets (l : Location) : List Int :=
  l.offset :: l.tx.map ZoneTrans.offset

/-- The zone UTC (`time.UTC`). -/
def UTC : Location := ⟨0, []⟩

/-- An instant with the zone it is displayed in. -/
structure Time where
  unixNano : Int
  loc : Location
  deriving DecidableEq, Repr

namespace Time

/-- Zero value of `time.Time`: January 1, year 1, 00:00:00 UTC. -/
def zero : Time := ⟨-62135596800 * Second, UTC⟩

/-- Method `t.Location()`. -/
def Location (t : Time) : Gollum.Location := t.loc

/-- Method `t.Unix()`: the Unix second of the instant. -/
def Unix (t : Time) : Int := t.unixNano / Gollum.Second

/-- Wall clock reading of `t` in its zone, in seconds (Go: `t.abs()`, counted from
the Unix epoch here): the Unix second plus the offset in force at it. -/
def localSeconds (t : Time) : Int := t.Unix + (t.loc.lookup t.Unix).offset

/-- Calendar day of `t` in its zone, as a day number (days since 1970-01-01).
It stands for the triple `t.Year(), t.Month(), t.Day()`, which names the same day. -/
def CalendarDay (t : Time) : Int := t.localSeconds / 86400

/-- Method `t.Hour()`: hour within the day, 0..23. -/
def Hour (t : Time) : Int := t.localSeconds % 86400 / 3600

/-- Method `t.Minute()`: minute within the hour, 0..59. -/
def Minute (t : Time) : Int := t.localSeconds % 3600 / 60

/-- Method `t.Second()`: second within the minute, 0..59. -/
def Second (t : Time) : Int := t.localSeconds % 60

/-- Method `t.Nanosecond()`: nanosecond within the second. -/
def Nanosecond (t : Time) : Int := t.unixNano % Gollum.Second

/-- Method `t.Sub(u)`: the duration `t - u`, clamped to the range of a Duration. -/
def Sub (t u : Time) : Int :=
  let d := t.unixNano - u.unixNano
  if d < minDuration then minDuration
  else if maxDuration < d then maxDuration
  else d

/-- Method `t.Before(u)`. -/
def Before (t u : Time) : Prop := t.unixNano < u.unixNano

instance (t u : Time) : Decidable (t.Before u) := by
  unfold Before; infer_instance

end Time

/-- Wall clock reading `hour:min:sec` on the calendar day `day`, in seconds (values
out of range carry over, as in Go). -/
def wallSeconds (day hour min sec : Int) : Int :=
  day * 86400 + hour * 3600 + min * 60 + sec

/-- Function `time.Date(year, month, day, hour, min, sec, nsec, loc)`, the calendar
day given as a day number. Go takes the wall clock reading for a Unix second and
looks up the zone in force there; if the offset is not zero it goes back by the
offset, and if that leaves the period of the zone it takes the offset in force at
the second it arrived at instead. A reading that a transition skips has no instant
and one that a transition repeats has two; the result is then the instant this
rule gives. -/
def Date (day hour min sec nsec : Int) (loc : Location) : Time :=
  let unix := wallSeconds day hour min sec
  let zone := loc.lookup unix
  let unix₁ :=
    if zone.offset ≠ 0 then
      let utc := unix - zone.offset
      let offset :=
        if utc < zone.start ∨ utc ≥ zone.stop then (loc.lookup utc).offset
        else zone.offset
      unix - offset
    else unix
  ⟨unix₁ * Second + nsec, loc⟩

/-- Function `time.Since(t)`, which is `time.Now().Sub(t)`; `now` is the clock reading. -/
def Since (now t : Time) : Int := now.Sub t

/-- Method `d.Minutes()`: the duration as a number of minutes. Go computes
`float64(d / Minute) + float64(d % Minute) / (60 * 1e9)` with truncated division;
here the same expression is evaluated over the rationals. Both summands have the
sign of `d`, and rounding to float64 keeps the sign of each, so the sign of the
Go result is the sign of this one. -/
def Minutes (d : Int) : ℚ :=
  ((Int.tdiv d Minute : Int) : ℚ) + ((Int.tmod d Minute : Int) : ℚ) / (60 * 1000000000)

/-! ## packages strings and strconv (Go standard library), as far as the sources use them

A Go string is taken as its list of characters. The functions below look at ASCII
characters only (`:`, the signs, digits and letters), and no byte of the UTF-8
encoding of another character is one of those, so reading characters instead of
bytes gives the same results. -/

/-- Function `strings.Split(s, sep)` for a separator of one character: the pieces
of `s` between the separators, one more than there are separators. -/
def Split : List Char → Char → List (List Char)
  | [], _ => [[]]
  | c :: rest, sep =>
    if c = sep then [] :: Split rest sep
    else
      match Split rest sep with
      | [] => [[c]]
      | piece :: pieces => (c :: piece) :: pieces

/-- The two errors of package strconv: `ErrSyntax` and `ErrRange`. -/
inductive NumError where
  | ErrSyntax
  | ErrRange
  deriving DecidableEq, Repr

/-- Value of a character as a digit, as the loop of `ParseUint` reads it: `0`..`9`
are 0..9, a letter of either case is 10..35, anything else is no digit. -/
def digitVal (c : Char) : Option Nat :=
  if 48 ≤ c.toNat ∧ c.toNat ≤ 57 then some (c.toNat - 48)
  else if 97 ≤ (c.toNat ||| 32) ∧ (c.toNat ||| 32) ≤ 122 then some ((c.toNat ||| 32) - 97 + 10)
  else none

/-- Loop of `strconv.ParseUint` over the characters, `n` being the value read so
far: a character that is no digit of the base is a syntax error with value 0; a
value that leaves the range is a range error with value `maxVal`, reported at
once. The arithmetic is that of uint64. -/
def ParseUint.scan (base maxVal cutoff : Nat) : List Char → Nat → Nat × Option NumError
  | [], n => (n, none)
  | c :: rest, n =>
    match digitVal c with
    | none => (0, some NumError.ErrSyntax)
    | some d =>
      if d ≥ base then (0, some NumError.ErrSyntax)
      else if n ≥ cutoff then (maxVal, some NumError.ErrRange)
      else
        let n₀ := n * base % 2 ^ 64
        let n₁ := (n₀ + d) % 2 ^ 64
        if n₁ < n₀ ∨ n₁ > maxVal then (maxVal, some NumError.ErrRange)
        else ParseUint.scan base maxVal cutoff rest n₁

/-- Function `strconv.ParseUint(s, base, bitSize)` for a base in 2..36 and a bit
size in 1..64, which is how the sources call it. -/
def ParseUint (s : List Char) (base bitSize : Nat) : Nat × Option NumError :=
  if s = [] then (0, some NumError.ErrSyntax)
  else ParseUint.scan base (2 ^ bitSize - 1) ((2 ^ 64 - 1) / base + 1) s 0

/-- Function `strconv.ParseInt(s, base, bitSize)` for a base in 2..36 and a bit
size in 1..64: an optional sign, then `ParseUint`; a syntax error gives 0, a value
outside the signed range of `bitSize` bits gives the nearest bound and a range
error. -/
def ParseInt (s : List Char) (base bitSize : Nat) : Int × Option NumError :=
  match s with
  | [] => (0, some NumError.ErrSyntax)
  | c :: rest =>
    let neg : Bool := c = '-'
    let digits := if c = '+' ∨ c = '-' then rest else s
    match ParseUint digits base bitSize with
    | (_, some NumError.ErrSyntax) => (0, some NumError.ErrSyntax)
    | (un, _) =>
      let cutoff : Nat := 2 ^ (bitSize - 1)
      if !neg && un ≥ cutoff then ((cutoff : Int) - 1, some NumError.ErrRange)
      else if neg && un > cutoff then (-(cutoff : Int), some NumError.ErrRange)
      else (if neg then -(un : Int) else (un : Int), none)

/-! ## package core, as far as the sources use it -/

/-- One byte of a payload. -/
abbrev Byte := Fin 256

/-- Verdict of a modulator (`core.ModulateResult`). -/
inductive ModulateResult where
  | Continue
  | Drop
  | Discard
  deriving DecidableEq, Repr

/-- A message: payload and routing metadata (`core.Message`). -/
structure Message where
  Data : List Byte
  StreamID : Nat
  deriving DecidableEq, Repr

/-- A modulator stage or chain (`core.Modulator`): `Modulate` may rewrite the
message and yields a verdict. -/
abbrev Modulator := Message → Message × ModulateResult

/-- What a `FileStateWriter` value answers when its methods are called:
`Name()`, `Size()`, `IsAccessible()`, and whether `Write(p)` returns an error. -/
structure FileStateWriter where
  Name : String
  Size : Int
  IsAccessible : Bool
  ioError : List Byte → Bool

/-- An observable effect on a collaborator. -/
inductive Event where
  /-- the assembly was rebound to the writer of this name -/
  | SetWriter (name : String)
  /-- the assembly's Write path applied the modulator chain to this message -/
  | Modulate (msg : Message)
  /-- call of `Write(p)` on the writer of this name; `ok` is false on error -/
  | WriterWrite (name : String) (p : List Byte) (ok : Bool)
  /-- the fallback sink received this message -/
  | Fallback (msg : Message)
  /-- call of `Close()` on the writer of this name -/
  | WriterClose (name : String)
  deriving DecidableEq, Repr

/-- Whether the event is a call of `Close()` on a writer. -/
def Event.isWriterClose : Event → Bool
  | Event.WriterClose _ => true
  | _ => false

/-- Whether the event belongs to the assembly's Write path: a message seen by the
modulator chain or a write to the writer. -/
def Event.isWritePath : Event → Bool
  | Event.Modulate _ => true
  | Event.WriterWrite _ _ _ => true
  | _ => false

/-- Modelled from the spec: `core.MessageBatch` (section 4.1); package core lies
outside the sources embedded here. A bounded queue of pending messages that can be
closed. -/
structure MessageBatch where
  capacity : Nat
  queue : List Message
  closed : Bool
  deriving DecidableEq, Repr

/-- Modelled from the spec: `core.NewMessageBatch(maxMessageCount)`, an empty open
batch of the given capacity. -/
def NewMessageBatch (maxMessageCount : Nat) : MessageBatch :=
  ⟨maxMessageCount, [], false⟩

/-- Modelled from the spec: `core.WriterAssembly` (section 4.2); package core lies
outside the sources embedded here. It binds a writer and the modulator chain; the
fallback sink it was built with shows as `Event.Fallback`. -/
structure WriterAssembly where
  writer : Option FileStateWriter
  modulator : Modulator

/-- Modelled from the spec: `core.NewWriterAssembly(writer, tryFallback, modulator)`. -/
def NewWriterAssembly (writer : Option FileStateWriter) (modulator : Modulator) :
    WriterAssembly :=
  ⟨writer, modulator⟩

namespace WriterAssembly

/-- Modelled from the spec: `SetWriter(w)` rebinds the target writer. -/
def SetWriter (asm : WriterAssembly) (w : FileStateWriter) : WriterAssembly :=
  { asm with writer := some w }

/-- Modelled from the spec: the treatment of one message by `Write`. The modulator
chain is applied; on Drop or Discard the message is skipped; on Continue the
payload is written to the bound writer, and when that write fails (I/O error,
writer not accessible, or no writer bound) the message goes to the fallback sink. -/
def writeOne (asm : WriterAssembly) (msg : Message) : List Event :=
  match asm.modulator msg with
  | (out, ModulateResult.Continue) =>
    match asm.writer with
    | some w =>
      if w.IsAccessible && !w.ioError out.Data then
        [Event.Modulate msg, Event.WriterWrite w.Name out.Data true]
      else
        [Event.Modulate msg, Event.WriterWrite w.Name out.Data false, Event.Fallback out]
    | none => [Event.Modulate msg, Event.Fallback out]
  | (_, _) => [Event.Modulate msg]

/-- Modelled from the spec: `Write(messages)` treats the messages one by one in
batch order; a failure of one does not stop the next. -/
def Write (asm : WriterAssembly) : List Message → List Event
  | [] => []
  | msg :: rest => asm.writeOne msg ++ Write asm rest

/-- Modelled from the spec: `Flush(messages)` routes every message straight to the
fallback sink. -/
def Flush (_asm : WriterAssembly) (messages : List Message) : List Event :=
  messages.map Event.Fallback

end WriterAssembly

namespace MessageBatch

/-- Modelled from the spec: `Flush(drain)` takes the current contents out of the
batch and calls `drain` once with them if there are any. -/
def Flush (batch : MessageBatch) (drain : List Message → List Event) :
    MessageBatch × List Event :=
  if batch.queue.isEmpty then (batch, [])
  else ({ batch with queue := [] }, drain batch.queue)

/-- Modelled from the spec: `Close(drain, timeout)` marks the batch closed, then
performs a final flush through `drain` bounded by `timeout`. `pace d` is how many
messages the drain gets through within a duration `d` (it depends on the speed of
the backend); the messages after those are lost. -/
def Close (batch : MessageBatch) (drain : List Message → List Event) (timeout : Int)
    (pace : Int → Nat) : MessageBatch × List Event :=
  Flush { batch with closed := true, queue := batch.queue.take (pace timeout) } drain

end MessageBatch

/-! ## producer/filestate.go -/

/-- Struct `FileRotateConfig`: the rotation settings. -/
structure FileRotateConfig where
  timeout : Int
  sizeByte : Int
  zeroPad : Int
  enabled : Bool
  compress : Bool
  timestamp : String
  atHour : Int
  atMinute : Int
  deriving DecidableEq, Repr

/-- Struct `FileState` (the logger field is left out). `writer = none` is the nil
interface value. -/
structure FileState where
  writer : Option FileStateWriter
  batch : MessageBatch
  assembly : WriterAssembly
  fileCreated : Time
  flushTimeout : Int

/-- Function `NewFileState`: the fields not named in the composite literal
(`writer`, `fileCreated`) get their zero values. The `tryFallback` argument is the
sink behind `Event.Fallback`; the logger is left out. -/
def NewFileState (maxMessageCount : Nat) (modulator : Modulator) (timeout : Int) :
    FileState :=
  { writer := none
    batch := NewMessageBatch maxMessageCount
    assembly := NewWriterAssembly none modulator
    fileCreated := Time.zero
    flushTimeout := timeout }

/-- A Go `error` result: `none` is nil, `some msg` an error with that text. -/
abbrev Error := Option String

/-- Method `FileState.NeedsRotate`. `sinceNow` is the clock reading taken by
`time.Since`, `now` the one taken by `time.Now()` in the daily-boundary branch. -/
def FileState.NeedsRotate (state : FileState) (rotate : FileRotateConfig)
    (forceRotate : Bool) (sinceNow now : Time) : Bool × Error :=
  match state.writer with
  | none => (true, none)
  | some writer =>
    if writer.IsAccessible == false then
      (false, some "Can' access file to rotate")
    else if !rotate.enabled then
      (false, none)
    else if forceRotate then
      (true, none)
    else if writer.Size ≥ rotate.sizeByte then
      (true, none)
    else if Since sinceNow state.fileCreated ≥ rotate.timeout then
      (true, none)
    else if rotate.atHour > -1 ∧ rotate.atMinute > -1 then
      let rotateAt := Date now.CalendarDay rotate.atHour rotate.atMinute 0 0 now.Location
      if Minutes (state.fileCreated.Sub rotateAt) < 0 then
        (true, none)
      else
        (false, none)
    else
      (false, none)

/-- A run-time panic of the Go program, with the state and the effects up to it. -/
structure Panic where
  message : String
  state : FileState
  events : List Event

/-- Method `FileState.Flush`: the new state and the effects of the call. -/
def FileState.Flush (state : FileState) : FileState × List Event :=
  match state.writer with
  | some writer =>
    let assembly := state.assembly.SetWriter writer
    let (batch, events) := state.batch.Flush assembly.Write
    ({ state with assembly := assembly, batch := batch },
      Event.SetWriter writer.Name :: events)
  | none =>
    let (batch, events) := state.batch.Flush state.assembly.Flush
    ({ state with batch := batch }, events)

/-- Method `FileState.Close`. The last statement calls `Close()` on `state.writer`
whatever branch ran before; on the nil interface value that call panics. `pace` is
the speed of the drain (see `MessageBatch.Close`). -/
def FileState.Close (state : FileState) (pace : Int → Nat) :
    Except Panic (FileState × List Event) :=
  let (state₁, events₁) : FileState × List Event :=
    match state.writer with
    | some writer =>
      let assembly := state.assembly.SetWriter writer
      let (batch, events) := state.batch.Close assembly.Write state.flushTimeout pace
      ({ state with assembly := assembly, batch := batch },
        Event.SetWriter writer.Name :: events)
    | none =>
      let (batch, events) := state.batch.Close state.assembly.Flush state.flushTimeout pace
      ({ state with batch := batch }, events)
  match state₁.writer with
  | some writer => Except.ok (state₁, events₁ ++ [Event.WriterClose writer.Name])
  | none => Except.error ⟨"runtime error: invalid memory address or nil pointer dereference", state₁, events₁⟩

/-- Method `FileRotateConfig.Configure`. `rotateAt` is what
`conf.GetString("Rotation/At", "")` returns. The method has no result and pushes
nothing on the error stack of the reader, so it either completes, with the policy
as it leaves it, or panics on the index `parts[1]`. -/
def FileRotateConfig.Configure (rotate : FileRotateConfig) (rotateAt : String) :
    Except String FileRotateConfig :=
  if rotateAt ≠ "" then
    let parts := Split rotateAt.data ':'
    match parts[0]? with
    | none => Except.error "runtime error: index out of range [0] with length 0"
    | some part₀ =>
      let (rotateAtHour, _) := ParseInt part₀ 10 8
      match parts[1]? with
      | none => Except.error "runtime error: index out of range [1] with length 1"
      | some part₁ =>
        let (rotateAtMin, _) := ParseInt part₁ 10 8
        Except.ok { rotate with atHour := rotateAtHour, atMinute := rotateAtMin }
  else
    Except.ok rotate

/-! ## format/clear.go -/

/-- Modelled from the spec: `core.Message.Store(data)`, which lies in package core
outside the sources embedded here; it replaces the payload of the message (a
message has a mutable payload, section 1) and leaves the metadata alone. -/
def Message.Store (msg : Message) (data : List Byte) : Message :=
  { msg with Data := data }

/-- Struct `Clear`: the formatter has no fields. -/
structure Clear where
  deriving DecidableEq, Repr

/-- Method `Clear.Modulate`: the message after the call and the verdict. -/
def Clear.Modulate (_format : Clear) (msg : Message) : Message × ModulateResult :=
  (msg.Store [], ModulateResult.Continue)

/-! ## filter/regexp.go -/

/-- A compiled regular expression (`*regexp.Regexp`), taken as what its method
`MatchString` answers on a payload. -/
structure Regexp where
  MatchString : List Byte → Bool

/-- Struct `RegExp` (the embedded `core.FilterBase` is left out): `none` is the nil
pointer of an expression that is not configured. -/
structure RegExp where
  exp : Option Regexp
  expNot : Option Regexp

/-- Method `RegExp.Accepts`. -/
def RegExp.Accepts (filter : RegExp) (msg : Message) : Bool :=
  match filter.exp with
  | some exp => exp.MatchString msg.Data
  | none =>
    match filter.expNot with
    | some expNot => !expNot.MatchString msg.Data
    | none => true

/-! ## The decision rules of the specification (section 4.3) -/

/-- Today's boundary instant `atHour:atMinute:00`, on the calendar day of `now` in
the zone of `now`. -/
def boundary (policy : FileRotateConfig) (now : Time) : Time :=
  Date now.CalendarDay policy.atHour policy.atMinute 0 0 now.loc

/-- A modulator that passes every message unchanged. -/
def passAll : Modulator := fun msg => (msg, ModulateResult.Continue)

/-- A writer named `out.log` reporting the given size and accessibility, whose
writes succeed. -/
def sampleWriter (size : Int) (accessible : Bool) : FileStateWriter :=
  ⟨"out.log", size, accessible, fun _ => false⟩

/-- A file state with the given writer and creation time, an empty batch of
capacity 8 and a flush timeout of five seconds. -/
def sampleState (writer : Option FileStateWriter) (fileCreated : Time) : FileState :=
  { writer := writer
    batch := NewMessageBatch 8
    assembly := NewWriterAssembly none passAll
    fileCreated := fileCreated
    flushTimeout := 5 * Second }

/-- A policy with the default thresholds except `sizeByte = 1024`: timeout of 1440
minutes, and the given enabled flag and daily boundary. -/
def samplePolicy (enabled : Bool) (atHour atMinute : Int) : FileRotateConfig :=
  { timeout := 1440 * Minute
    sizeByte := 1024
    zeroPad := 0
    enabled := enabled
    compress := false
    timestamp := "2006-01-02_15"
    atHour := atHour
    atMinute := atMinute }

/-- The instant `sec` seconds after the Unix epoch, in UTC. -/
def utc (sec : Int) : Time := ⟨sec * Second, UTC⟩

/-- The instant 2026-11-01 00:00:00 UTC. -/
def midnight : Time := utc 1793491200

/-- The instant 2026-11-01 06:00:00 UTC. -/
def sixAM : Time := utc 1793512800

/-- The instant 2026-11-01 06:30:00 UTC. -/
def halfPastSix : Time := utc 1793514600

/-- The instant 2026-11-01 12:00:00 UTC. -/
def noon : Time := utc 1793534400

/-- Three pending messages. -/
def sampleQueue : List Message := [⟨[1, 2], 0⟩, ⟨[3], 0⟩, ⟨[4, 5, 6], 1⟩]

/-- An accessible writer named `out.log` whose `Write` fails on the payload `[3]`. -/
def flakyWriter : FileStateWriter := ⟨"out.log", 0, true, fun p => p == [3]⟩

/-- A file state with the given writer and the three sample messages pending. -/
def pendingState (writer : Option FileStateWriter) : FileState :=
  { writer := writer
    batch := ⟨8, sampleQueue, false⟩
    assembly := NewWriterAssembly none passAll
    fileCreated := sixAM
    flushTimeout := 5 * Second }

/-- The decimal digit `n` as a character. -/
def digitChar (n : Nat) : Char := Char.ofNat (48 + n)

/-- The text `HH:MM` of the hour `hh` and the minute `mm`, two decimal digits
each. -/
def clockText (hh mm : Nat) : String :=
  String.mk [digitChar (hh / 10), digitChar (hh % 10), ':',
    digitChar (mm / 10), digitChar (mm % 10)]

/-- A regular expression that matches the payloads containing the byte `b`, like
the expression of that one literal character. -/
def literal (b : Byte) : Regexp := ⟨fun p => p.contains b⟩

/-- The instant 2026-11-02 12:00:00 UTC. -/
def nextNoon : Time := utc 1793620800

/-- The instant 2026-10-31 23:00:00 UTC. -/
def lastNight : Time := utc 1793487600

/-- The instant `sec` seconds after the Unix epoch, in the zone `loc`. -/
def instant (loc : Location) (sec : Int) : Time := ⟨sec * Second, loc⟩

/-- The zone Europe/Berlin over the year 2026: UTC+1 at first, UTC+2 from
2026-03-29 01:00:00 UTC (02:00 local time becomes 03:00), UTC+1 again from
2026-10-25 01:00:00 UTC (03:00 local time becomes 02:00). -/
def berlin : Location := ⟨3600, [⟨1774746000, 7200⟩, ⟨1792890000, 3600⟩]⟩

/-- The zone Antarctica/Casey around 2010: UTC+8 at first, UTC+11 from
2009-10-17 18:00:00 UTC, UTC+8 again from 2010-03-04 15:00:00 UTC (02:00 local
time of March 5 becomes 23:00 of March 4). -/
def casey : Location := ⟨28800, [⟨1255802400, 39600⟩, ⟨1267714800, 28800⟩]⟩

/-! ## Facts about the time model -/

theorem Minute_pos : 0 < Minute := by decide

/-- The rational value of `Minutes d` is `d / Minute`. -/
theorem Minutes_eq (d : Int) : Minutes d = (d : ℚ) / 60000000000 := by
  have h : Int.tdiv d Minute * Minute + Int.tmod d Minute = d := by
    rw [Int.mul_comm]; exact Int.tdiv_add_tmod d Minute
  have hq : ((Int.tdiv d Minute : Int) : ℚ) * 60000000000 + ((Int.tmod d Minute : Int) : ℚ)
      = (d : ℚ) := by
    have := congrArg (fun z : Int => (z : ℚ)) h
    simp only [Int.cast_add, Int.cast_mul] at this
    rw [← this]
    simp [Minute, Second]
  unfold Minutes
  rw [← hq]
  field_simp
  ring

/-- The sign test on `Minutes` is the sign test on the duration. -/
theorem Minutes_neg_iff (d : Int) : Minutes d < 0 ↔ d < 0 := by
  rw [Minutes_eq]
  constructor
  · intro h
    by_contra hd
    have hd0 : (0 : ℚ) ≤ (d : ℚ) := by exact_mod_cast (not_lt.mp hd)
    have : (0 : ℚ) ≤ (d : ℚ) / 60000000000 := by positivity
    linarith
  · intro h
    have hd0 : (d : ℚ) < 0 := by exact_mod_cast h
    exact div_neg_of_neg_of_pos hd0 (by norm_num)

/-- Clamping keeps the sign of the difference. -/
theorem Time.Sub_neg_iff (t u : Time) : t.Sub u < 0 ↔ t.Before u := by
  unfold Time.Sub Time.Before minDuration maxDuration
  simp only
  split_ifs <;> omega

/-- Without clamping, `Sub` is the difference of the instants. -/
theorem Time.Sub_eq (t u : Time) (h₁ : minDuration ≤ t.unixNano - u.unixNano)
    (h₂ : t.unixNano - u.unixNano ≤ maxDuration) : t.Sub u = t.unixNano - u.unixNano := by
  unfold Time.Sub
  simp only
  split_ifs <;> omega

/-- For a threshold in the range of a Duration above its minimum, the clamped
elapsed time reaches the threshold exactly when the difference of the instants
does. -/
theorem Since_ge_iff (now t : Time) (d : Int) (h₁ : minDuration < d)
    (h₂ : d ≤ maxDuration) : Since now t ≥ d ↔ now.unixNano - t.unixNano ≥ d := by
  unfold Since Time.Sub
  simp only
  split_ifs <;> omega

/-- The test of the daily-boundary branch holds exactly when `fileCreated` is
before the boundary instant. -/
theorem Minutes_Sub_neg_iff (t u : Time) : Minutes (t.Sub u) < 0 ↔ t.Before u := by
  rw [Minutes_neg_iff, Time.Sub_neg_iff]

/-! ## NeedsRotate -/

/-- The result of `NeedsRotate` on a bound, accessible writer under an enabled
policy without a forced rotation: the three thresholds in their order. -/
theorem NeedsRotate_thresholds (state : FileState) (rotate : FileRotateConfig)
    (sinceNow now : Time) (w : FileStateWriter) (hw : state.writer = some w)
    (hacc : w.IsAccessible = true) (hen : rotate.enabled = true) :
    state.NeedsRotate rotate false sinceNow now =
      (decide (w.Size ≥ rotate.sizeByte
        ∨ Since sinceNow state.fileCreated ≥ rotate.timeout
        ∨ (rotate.atHour ≥ 0 ∧ rotate.atMinute ≥ 0 ∧
            state.fileCreated.Before (boundary rotate now))), none) := by
  have hb : (Minutes (state.fileCreated.Sub
      (Date now.CalendarDay rotate.atHour rotate.atMinute 0 0 now.Location)) < 0)
      ↔ state.fileCreated.Before (boundary rotate now) := Minutes_Sub_neg_iff _ _
  have h1 : rotate.atHour > -1 ↔ rotate.atHour ≥ 0 := by omega
  have h2 : rotate.atMinute > -1 ↔ rotate.atMinute ≥ 0 := by omega
  unfold FileState.NeedsRotate
  rw [hw]
  simp only [hacc, hen, hb, h1, h2]
  by_cases hs : w.Size ≥ rotate.sizeByte
  · simp [hs]
  · by_cases ht : Since sinceNow state.fileCreated ≥ rotate.timeout
    · simp [hs, ht]
    · by_cases hd : rotate.atHour ≥ 0 ∧ rotate.atMinute ≥ 0
      · by_cases hB : state.fileCreated.Before (boundary rotate now)
        · simp [hs, ht, hd, hB]
        · simp [hs, ht, hd, hB]
      · have hd2 : ¬ (rotate.atHour ≥ 0 ∧ rotate.atMinute ≥ 0 ∧
            state.fileCreated.Before (boundary rotate now)) := fun h => hd ⟨h.1, h.2.1⟩
        simp [hs, ht, hd, hd2]

/-- No writer bound: rotate, whatever else holds. -/
theorem NeedsRotate_of_no_writer (state : FileState) (rotate : FileRotateConfig)
    (forceRotate : Bool) (sinceNow now : Time) (hw : state.writer = none) :
    state.NeedsRotate rotate forceRotate sinceNow now = (true, none) := by
  unfold FileState.NeedsRotate
  rw [hw]

/-- Writer bound but not accessible: the error result. -/
theorem NeedsRotate_of_inaccessible (state : FileState) (rotate : FileRotateConfig)
    (forceRotate : Bool) (sinceNow now : Time) (w : FileStateWriter)
    (hw : state.writer = some w) (hacc : w.IsAccessible = false) :
    state.NeedsRotate rotate forceRotate sinceNow now =
      (false, some "Can' access file to rotate") := by
  unfold FileState.NeedsRotate
  rw [hw]
  simp [hacc]

/-- Writer bound and accessible, policy disabled: no rotation. -/
theorem NeedsRotate_of_disabled (state : FileState) (rotate : FileRotateConfig)
    (forceRotate : Bool) (sinceNow now : Time) (w : FileStateWriter)
    (hw : state.writer = some w) (hacc : w.IsAccessible = true)
    (hen : rotate.enabled = false) :
    state.NeedsRotate rotate forceRotate sinceNow now = (false, none) := by
  unfold FileState.NeedsRotate
  rw [hw]
  simp [hacc, hen]

/-- Writer bound and accessible, policy enabled, rotation forced: rotate. -/
theorem NeedsRotate_of_forced (state : FileState) (rotate : FileRotateConfig)
    (sinceNow now : Time) (w : FileStateWriter)
    (hw : state.writer = some w) (hacc : w.IsAccessible = true)
    (hen : rotate.enabled = true) :
    state.NeedsRotate rotate true sinceNow now = (true, none) := by
  unfold FileState.NeedsRotate
  rw [hw]
  simp [hacc, hen]

/-- The Unix second of an instant given in whole seconds. -/
theorem Unix_of_seconds (x : Int) (loc : Location) :
    (Time.mk (x * Second + 0) loc).Unix = x := by
  simp only [Time.Unix, Second]
  omega

/-- The search ends with the offset it started with or with that of a transition. -/
theorem Location.scan_offset_mem (sec : Int) (tx : List ZoneTrans) :
    ∀ offset start : Int,
      (Location.scan sec offset start tx).offset ∈ offset :: tx.map ZoneTrans.offset := by
  induction tx with
  | nil =>
    intro offset start
    simp [Location.scan]
  | cons t rest ih =>
    intro offset start
    unfold Location.scan
    split_ifs
    · simp
    · have := ih t.offset t.when
      simp only [List.map_cons, List.mem_cons] at this ⊢
      exact Or.inr this

/-- The offset in force at any second is one of the offsets of the zone. -/
theorem Location.lookup_offset_mem (l : Location) (sec : Int) :
    (l.lookup sec).offset ∈ l.offsets :=
  Location.scan_offset_mem sec l.tx l.offset alpha

/-- In a zone without transitions the first offset is in force throughout. -/
theorem Location.lookup_of_no_transitions (l : Location) (h : l.tx = []) (sec : Int) :
    l.lookup sec = ⟨l.offset, alpha, omega⟩ := by
  unfold Location.lookup
  rw [h]
  rfl

/-- The start of the period found is not before the start the search began with,
in an ascending table that begins after it. -/
theorem Location.scan_start_ge (sec : Int) (tx : List ZoneTrans) :
    ∀ offset start : Int, (∀ t ∈ tx, start ≤ t.when) →
      tx.Pairwise (fun a b => a.when ≤ b.when) →
      start ≤ (Location.scan sec offset start tx).start := by
  induction tx with
  | nil =>
    intro offset start _ _
    simp [Location.scan]
  | cons t rest ih =>
    intro offset start hst hasc
    unfold Location.scan
    split_ifs
    · exact le_refl _
    · have h₁ : ∀ u ∈ rest, t.when ≤ u.when := (List.pairwise_cons.mp hasc).1
      have h₂ := ih t.offset t.when h₁ (List.pairwise_cons.mp hasc).2
      exact le_trans (hst t (List.mem_cons_self t rest)) h₂

/-- In an ascending table every second of the period found for `sec` has the same
period. -/
theorem Location.scan_within (sec sec₁ : Int) (tx : List ZoneTrans) :
    ∀ offset start : Int, tx.Pairwise (fun a b => a.when ≤ b.when) →
      (Location.scan sec offset start tx).start ≤ sec₁ →
      sec₁ < (Location.scan sec offset start tx).stop →
      Location.scan sec₁ offset start tx = Location.scan sec offset start tx := by
  induction tx with
  | nil =>
    intro offset start _ _ _
    simp [Location.scan]
  | cons t rest ih =>
    intro offset start hasc
    have h₁ : ∀ u ∈ rest, t.when ≤ u.when := (List.pairwise_cons.mp hasc).1
    have h₂ : rest.Pairwise (fun a b => a.when ≤ b.when) := (List.pairwise_cons.mp hasc).2
    by_cases hsec : sec < t.when
    · intro _ hstop
      have hz : Location.scan sec offset start (t :: rest) = ⟨offset, start, t.when⟩ := by
        simp [Location.scan, hsec]
      rw [hz] at hstop ⊢
      simp only at hstop
      simp [Location.scan, hstop]
    · intro hstart hstop
      have hz : Location.scan sec offset start (t :: rest)
          = Location.scan sec t.offset t.when rest := by
        simp [Location.scan, hsec]
      rw [hz] at hstart hstop ⊢
      have hge : t.when ≤ sec₁ :=
        le_trans (Location.scan_start_ge sec rest t.offset t.when h₁ h₂) hstart
      have hz₁ : Location.scan sec₁ offset start (t :: rest)
          = Location.scan sec₁ t.offset t.when rest := by
        simp [Location.scan, not_lt.mpr hge]
      rw [hz₁]
      exact ih t.offset t.when h₂ hstart hstop

/-- The instant `time.Date` returns lies one of the offsets of the zone before the
wall clock reading taken as a Unix second. -/
theorem Date_unixNano (day hour min sec : Int) (loc : Location) :
    ∃ o ∈ loc.offsets,
      (Date day hour min sec 0 loc).unixNano = (wallSeconds day hour min sec - o) * Second := by
  by_cases h0 : (loc.lookup (wallSeconds day hour min sec)).offset = 0
  · refine ⟨(loc.lookup (wallSeconds day hour min sec)).offset,
      loc.lookup_offset_mem _, ?_⟩
    simp [Date, h0]
  · by_cases hout : wallSeconds day hour min sec
          - (loc.lookup (wallSeconds day hour min sec)).offset
          < (loc.lookup (wallSeconds day hour min sec)).start
        ∨ wallSeconds day hour min sec
          - (loc.lookup (wallSeconds day hour min sec)).offset
          ≥ (loc.lookup (wallSeconds day hour min sec)).stop
    · refine ⟨(loc.lookup (wallSeconds day hour min sec
        - (loc.lookup (wallSeconds day hour min sec)).offset)).offset,
        loc.lookup_offset_mem _, ?_⟩
      simp [Date, h0, hout]
    · refine ⟨(loc.lookup (wallSeconds day hour min sec)).offset,
        loc.lookup_offset_mem _, ?_⟩
      simp [Date, h0, hout]

/-- The boundary instant is given in whole seconds. -/
theorem boundary_Nanosecond (rotate : FileRotateConfig) (now : Time) :
    (boundary rotate now).Nanosecond = 0 := by
  obtain ⟨o, _, ho⟩ := Date_unixNano now.CalendarDay rotate.atHour rotate.atMinute 0 now.loc
  unfold Time.Nanosecond boundary
  rw [ho]
  simp only [Second]
  omega

/-- A boundary instant that reads the wall clock asked for, with an hour in 0..23
and a minute in 0..59, lies on the calendar day of `now` in the zone of `now` and
reads `atHour:atMinute:00` there. -/
theorem boundary_reads (rotate : FileRotateConfig) (now : Time)
    (hh : 0 ≤ rotate.atHour ∧ rotate.atHour ≤ 23)
    (hm : 0 ≤ rotate.atMinute ∧ rotate.atMinute ≤ 59)
    (hvalid : (boundary rotate now).localSeconds
      = wallSeconds now.CalendarDay rotate.atHour rotate.atMinute 0) :
    (boundary rotate now).loc = now.loc
    ∧ (boundary rotate now).CalendarDay = now.CalendarDay
    ∧ (boundary rotate now).Hour = rotate.atHour
    ∧ (boundary rotate now).Minute = rotate.atMinute
    ∧ (boundary rotate now).Second = 0
    ∧ (boundary rotate now).Nanosecond = 0 := by
  obtain ⟨hh0, hh1⟩ := hh
  obtain ⟨hm0, hm1⟩ := hm
  have hls : (boundary rotate now).localSeconds
      = now.CalendarDay * 86400 + rotate.atHour * 3600 + rotate.atMinute * 60 := by
    rw [hvalid]
    simp only [wallSeconds]
    omega
  refine ⟨rfl, ?_, ?_, ?_, ?_, boundary_Nanosecond rotate now⟩
  · show (boundary rotate now).localSeconds / 86400 = now.CalendarDay
    rw [hls]; omega
  · show (boundary rotate now).localSeconds % 86400 / 3600 = rotate.atHour
    rw [hls]; omega
  · show (boundary rotate now).localSeconds % 3600 / 60 = rotate.atMinute
    rw [hls]; omega
  · show (boundary rotate now).localSeconds % 60 = 0
    rw [hls]; omega

/-- In a zone without transitions the boundary instant reads the wall clock asked
for. -/
theorem boundary_valid_of_no_transitions (rotate : FileRotateConfig) (now : Time)
    (hfix : now.loc.tx = []) :
    (boundary rotate now).localSeconds
      = wallSeconds now.CalendarDay rotate.atHour rotate.atMinute 0 := by
  have hl : ∀ sec, now.loc.lookup sec = ⟨now.loc.offset, alpha, omega⟩ :=
    Location.lookup_of_no_transitions now.loc hfix
  have hu : (boundary rotate now).Unix
      = wallSeconds now.CalendarDay rotate.atHour rotate.atMinute 0 - now.loc.offset := by
    unfold boundary Date
    simp only [hl, ite_self]
    rw [Unix_of_seconds]
    split_ifs with h0
    · rfl
    · have : now.loc.offset = 0 := not_not.mp h0
      omega
  unfold Time.localSeconds
  rw [hu]
  show _ + (now.loc.lookup _).offset = _
  rw [hl]
  simp only
  omega

/-- In an ascending zone table the boundary instant reads the wall clock asked for
when the zone in force at that reading, taken as a Unix second, has offset zero or
is still in force at the reading less its offset: no transition lies between. -/
theorem boundary_valid_of_same_period (rotate : FileRotateConfig) (now : Time)
    (hasc : now.loc.tx.Pairwise (fun a b => a.when ≤ b.when))
    (hsame :
      (now.loc.lookup (wallSeconds now.CalendarDay rotate.atHour rotate.atMinute 0)).offset = 0
      ∨ ((now.loc.lookup (wallSeconds now.CalendarDay rotate.atHour rotate.atMinute 0)).start
          ≤ wallSeconds now.CalendarDay rotate.atHour rotate.atMinute 0
            - (now.loc.lookup
                (wallSeconds now.CalendarDay rotate.atHour rotate.atMinute 0)).offset
        ∧ wallSeconds now.CalendarDay rotate.atHour rotate.atMinute 0
            - (now.loc.lookup
                (wallSeconds now.CalendarDay rotate.atHour rotate.atMinute 0)).offset
          < (now.loc.lookup
              (wallSeconds now.CalendarDay rotate.atHour rotate.atMinute 0)).stop)) :
    (boundary rotate now).localSeconds
      = wallSeconds now.CalendarDay rotate.atHour rotate.atMinute 0 := by
  by_cases h0 : (now.loc.lookup
      (wallSeconds now.CalendarDay rotate.atHour rotate.atMinute 0)).offset = 0
  · have hu : (boundary rotate now).Unix
        = wallSeconds now.CalendarDay rotate.atHour rotate.atMinute 0 := by
      unfold boundary Date
      simp only [h0, ne_eq, not_true_eq_false, if_false]
      exact Unix_of_seconds _ _
    unfold Time.localSeconds
    rw [hu]
    show _ + (now.loc.lookup _).offset = _
    rw [h0]
    omega
  · rcases hsame with h | ⟨hstart, hstop⟩
    · exact absurd h h0
    · have hin : ¬ (wallSeconds now.CalendarDay rotate.atHour rotate.atMinute 0
            - (now.loc.lookup
                (wallSeconds now.CalendarDay rotate.atHour rotate.atMinute 0)).offset
            < (now.loc.lookup
                (wallSeconds now.CalendarDay rotate.atHour rotate.atMinute 0)).start
          ∨ wallSeconds now.CalendarDay rotate.atHour rotate.atMinute 0
            - (now.loc.lookup
                (wallSeconds now.CalendarDay rotate.atHour rotate.atMinute 0)).offset
            ≥ (now.loc.lookup
                (wallSeconds now.CalendarDay rotate.atHour rotate.atMinute 0)).stop) := by
        rintro (h | h) <;> omega
      have hu : (boundary rotate now).Unix
          = wallSeconds now.CalendarDay rotate.atHour rotate.atMinute 0
            - (now.loc.lookup
                (wallSeconds now.CalendarDay rotate.atHour rotate.atMinute 0)).offset := by
        unfold boundary Date
        simp only [h0, hin, ne_eq, not_false_eq_true, if_true, if_false]
        exact Unix_of_seconds _ _
      have hz := Location.scan_within
        (wallSeconds now.CalendarDay rotate.atHour rotate.atMinute 0)
        (wallSeconds now.CalendarDay rotate.atHour rotate.atMinute 0
          - (now.loc.lookup
              (wallSeconds now.CalendarDay rotate.atHour rotate.atMinute 0)).offset)
        now.loc.tx now.loc.offset alpha hasc hstart hstop
      unfold Time.localSeconds
      rw [hu]
      show _ + (now.loc.lookup _).offset = _
      have hz₁ : now.loc.lookup (wallSeconds now.CalendarDay rotate.atHour rotate.atMinute 0
          - (now.loc.lookup
              (wallSeconds now.CalendarDay rotate.atHour rotate.atMinute 0)).offset)
          = now.loc.lookup (wallSeconds now.CalendarDay rotate.atHour rotate.atMinute 0) := hz
      rw [hz₁]
      omega

/-- In one zone whose offsets lie within 24 hours of each other, a later calendar
day does not give an earlier boundary instant. -/
theorem boundary_mono_day (rotate : FileRotateConfig) (n₁ n₂ : Time)
    (hloc : n₁.loc = n₂.loc) (hday : n₁.CalendarDay ≤ n₂.CalendarDay)
    (hoff : ∀ o ∈ n₁.loc.offsets, ∀ o₁ ∈ n₁.loc.offsets, o₁ - o ≤ 86400) :
    (boundary rotate n₁).unixNano ≤ (boundary rotate n₂).unixNano := by
  rcases eq_or_lt_of_le hday with heq | hlt
  · unfold boundary
    rw [heq, hloc]
  · obtain ⟨o₁, ho₁, h₁⟩ :=
      Date_unixNano n₁.CalendarDay rotate.atHour rotate.atMinute 0 n₁.loc
    obtain ⟨o₂, ho₂, h₂⟩ :=
      Date_unixNano n₂.CalendarDay rotate.atHour rotate.atMinute 0 n₂.loc
    rw [← hloc] at ho₂
    have hd := hoff o₁ ho₁ o₂ ho₂
    unfold boundary
    rw [h₁, h₂]
    simp only [wallSeconds, Second]
    omega

/-- C2: bootstrap. For every `FileState` with no writer bound, every policy and
either value of `forceRotate`, `NeedsRotate` returns `(true, nil)`; this holds in
particular for the state returned by `NewFileState`. -/
theorem NeedsRotate_bootstrap (state : FileState) (rotate : FileRotateConfig)
    (forceRotate : Bool) (sinceNow now : Time) (maxMessageCount : Nat)
    (modulator : Modulator) (timeout : Int) (hw : state.writer = none) :
    state.NeedsRotate rotate forceRotate sinceNow now = (true, none)
    ∧ (NewFileState maxMessageCount modulator timeout).NeedsRotate rotate forceRotate
        sinceNow now = (true, none) :=
  ⟨NeedsRotate_of_no_writer state rotate forceRotate sinceNow now hw,
    NeedsRotate_of_no_writer _ rotate forceRotate sinceNow now rfl⟩

/-- Instance of C2: no writer, a disabled policy, no forced rotation. -/
theorem NeedsRotate_bootstrap_witness :
    (sampleState none noon).writer = none
    ∧ (sampleState none noon).NeedsRotate (samplePolicy false (-1) (-1)) false noon noon
        = (true, none)
    ∧ (NewFileState 8 passAll (5 * Second)).NeedsRotate (samplePolicy false (-1) (-1))
        false noon noon = (true, none) :=
  ⟨rfl, NeedsRotate_bootstrap (sampleState none noon) (samplePolicy false (-1) (-1))
    false noon noon 8 passAll (5 * Second) rfl⟩

/-- C3: accessibility short-circuits. For every `FileState` whose bound writer
reports `IsAccessible() = false`, `NeedsRotate` returns rotate = false together
with a non-nil error, for every policy and every `forceRotate`, size and age. -/
theorem NeedsRotate_inaccessible_error (state : FileState) (rotate : FileRotateConfig)
    (forceRotate : Bool) (sinceNow now : Time) (w : FileStateWriter)
    (hw : state.writer = some w) (hacc : w.IsAccessible = false) :
    (state.NeedsRotate rotate forceRotate sinceNow now).1 = false
    ∧ (state.NeedsRotate rotate forceRotate sinceNow now).2 ≠ none := by
  rw [NeedsRotate_of_inaccessible state rotate forceRotate sinceNow now w hw hacc]
  simp

/-- Instance of C3: an inaccessible writer of size 4096 ≥ 1024 created at the zero
time (age above the timeout), enabled policy, forced rotation. -/
theorem NeedsRotate_inaccessible_error_witness :
    (sampleState (some (sampleWriter 4096 false)) Time.zero).writer
        = some (sampleWriter 4096 false)
    ∧ (sampleWriter 4096 false).IsAccessible = false
    ∧ (sampleWriter 4096 false).Size ≥ (samplePolicy true 6 30).sizeByte
    ∧ Since noon Time.zero ≥ (samplePolicy true 6 30).timeout
    ∧ ((sampleState (some (sampleWriter 4096 false)) Time.zero).NeedsRotate
        (samplePolicy true 6 30) true noon noon).1 = false
    ∧ ((sampleState (some (sampleWriter 4096 false)) Time.zero).NeedsRotate
        (samplePolicy true 6 30) true noon noon).2 ≠ none :=
  ⟨rfl, rfl, by decide, by decide,
    NeedsRotate_inaccessible_error _ (samplePolicy true 6 30) true noon noon
      (sampleWriter 4096 false) rfl rfl⟩

/-- C4, as the code has it: for every `FileState` with a bound, accessible writer
and every enabled rotation policy, `NeedsRotate` with `forceRotate = true` returns
`(true, nil)` regardless of the writer's size and age. -/
theorem NeedsRotate_force_enabled (state : FileState) (rotate : FileRotateConfig)
    (sinceNow now : Time) (w : FileStateWriter)
    (hw : state.writer = some w) (hacc : w.IsAccessible = true)
    (hen : rotate.enabled = true) :
    state.NeedsRotate rotate true sinceNow now = (true, none) :=
  NeedsRotate_of_forced state rotate sinceNow now w hw hacc hen

/-- Instance of C4 as amended: an empty accessible writer created at the time of
the evaluation, enabled policy without a daily boundary, forced rotation. -/
theorem NeedsRotate_force_enabled_witness :
    (sampleState (some (sampleWriter 0 true)) noon).writer = some (sampleWriter 0 true)
    ∧ (sampleWriter 0 true).IsAccessible = true
    ∧ (samplePolicy true (-1) (-1)).enabled = true
    ∧ (sampleState (some (sampleWriter 0 true)) noon).NeedsRotate
        (samplePolicy true (-1) (-1)) true noon noon = (true, none) :=
  ⟨rfl, rfl, rfl,
    NeedsRotate_force_enabled _ (samplePolicy true (-1) (-1)) noon noon
      (sampleWriter 0 true) rfl rfl rfl⟩

/-- C4 as stated fails: with a bound, accessible writer and a disabled policy,
`NeedsRotate` with `forceRotate = true` returns `(false, nil)`, not `(true, nil)`. -/
theorem NeedsRotate_force_disabled_counterexample :
    (sampleState (some (sampleWriter 0 true)) noon).writer = some (sampleWriter 0 true)
    ∧ (sampleWriter 0 true).IsAccessible = true
    ∧ (samplePolicy false (-1) (-1)).enabled = false
    ∧ (sampleState (some (sampleWriter 0 true)) noon).NeedsRotate
        (samplePolicy false (-1) (-1)) true noon noon = (false, none)
    ∧ (sampleState (some (sampleWriter 0 true)) noon).NeedsRotate
        (samplePolicy false (-1) (-1)) true noon noon ≠ (true, none) := by
  have h : (sampleState (some (sampleWriter 0 true)) noon).NeedsRotate
      (samplePolicy false (-1) (-1)) true noon noon = (false, none) :=
    NeedsRotate_of_disabled _ _ true noon noon (sampleWriter 0 true) rfl rfl rfl
  refine ⟨rfl, rfl, rfl, h, ?_⟩
  rw [h]
  decide

/-- C5: a disabled policy pre-empts every trigger. For every `FileState` with a
bound, accessible writer and every policy with `enabled = false`, `NeedsRotate`
returns `(false, nil)`, whatever `forceRotate`, the size, the age and the daily
boundary are. -/
theorem NeedsRotate_disabled (state : FileState) (rotate : FileRotateConfig)
    (forceRotate : Bool) (sinceNow now : Time) (w : FileStateWriter)
    (hw : state.writer = some w) (hacc : w.IsAccessible = true)
    (hen : rotate.enabled = false) :
    state.NeedsRotate rotate forceRotate sinceNow now = (false, none) :=
  NeedsRotate_of_disabled state rotate forceRotate sinceNow now w hw hacc hen

/-- Instance of C5: every trigger is present (forced, size 4096 ≥ 1024, created at
the zero time, boundary 06:30 passed at noon) and the disabled policy still gives
`(false, nil)`. -/
theorem NeedsRotate_disabled_witness :
    (sampleState (some (sampleWriter 4096 true)) Time.zero).writer
        = some (sampleWriter 4096 true)
    ∧ (sampleWriter 4096 true).IsAccessible = true
    ∧ (samplePolicy false 6 30).enabled = false
    ∧ (sampleWriter 4096 true).Size ≥ (samplePolicy false 6 30).sizeByte
    ∧ Since noon Time.zero ≥ (samplePolicy false 6 30).timeout
    ∧ Time.zero.Before (boundary (samplePolicy false 6 30) noon)
    ∧ (sampleState (some (sampleWriter 4096 true)) Time.zero).NeedsRotate
        (samplePolicy false 6 30) true noon noon = (false, none) :=
  ⟨rfl, rfl, rfl, by decide, by decide, by decide,
    NeedsRotate_disabled _ (samplePolicy false 6 30) true noon noon
      (sampleWriter 4096 true) rfl rfl rfl⟩

/-- C6: rotation precedence, no trigger. For every `FileState` with a bound,
accessible writer with size < `sizeByte` and elapsed time since `fileCreated`
< `timeout`, a policy with no daily boundary configured (`atHour < 0` or
`atMinute < 0`) and `forceRotate = false`, `NeedsRotate` returns `(false, nil)`,
whether the policy is enabled or not. -/
theorem NeedsRotate_no_trigger (state : FileState) (rotate : FileRotateConfig)
    (sinceNow now : Time) (w : FileStateWriter)
    (hw : state.writer = some w) (hacc : w.IsAccessible = true)
    (hsize : w.Size < rotate.sizeByte)
    (hage : Since sinceNow state.fileCreated < rotate.timeout)
    (hday : rotate.atHour < 0 ∨ rotate.atMinute < 0) :
    state.NeedsRotate rotate false sinceNow now = (false, none) := by
  cases hen : rotate.enabled with
  | false => exact NeedsRotate_of_disabled state rotate false sinceNow now w hw hacc hen
  | true =>
    rw [NeedsRotate_thresholds state rotate sinceNow now w hw hacc hen]
    have h : ¬ (w.Size ≥ rotate.sizeByte
        ∨ Since sinceNow state.fileCreated ≥ rotate.timeout
        ∨ (rotate.atHour ≥ 0 ∧ rotate.atMinute ≥ 0 ∧
            state.fileCreated.Before (boundary rotate now))) := by
      rintro (h | h | ⟨h₁, h₂, _⟩) <;> omega
    simp [h]

/-- Instance of C6: size 1023 < 1024, created at 06:00 and evaluated at noon (age
six hours < 1440 minutes), enabled policy with only the hour of a boundary set. -/
theorem NeedsRotate_no_trigger_witness :
    (sampleState (some (sampleWriter 1023 true)) sixAM).writer
        = some (sampleWriter 1023 true)
    ∧ (sampleState (some (sampleWriter 1023 true)) sixAM).NeedsRotate
        (samplePolicy true 6 (-1)) false noon noon = (false, none) :=
  ⟨rfl, NeedsRotate_no_trigger _ (samplePolicy true 6 (-1)) noon noon
    (sampleWriter 1023 true) rfl rfl (by decide) (by decide) (Or.inr (by decide))⟩

/-- C7: the size threshold is inclusive. For an enabled policy, a bound accessible
writer, `forceRotate = false`, elapsed time < `timeout` and no daily boundary
configured, `NeedsRotate` returns `(true, nil)` if and only if
`Size() ≥ sizeByte`, and `(false, nil)` otherwise; with `sizeByte = 1024`,
`Size() = 1023` yields `(false, nil)` and `Size() = 1024` yields `(true, nil)`. -/
theorem NeedsRotate_size_threshold (state : FileState) (rotate : FileRotateConfig)
    (sinceNow now : Time) (w : FileStateWriter)
    (hw : state.writer = some w) (hacc : w.IsAccessible = true)
    (hen : rotate.enabled = true)
    (hage : Since sinceNow state.fileCreated < rotate.timeout)
    (hday : rotate.atHour < 0 ∨ rotate.atMinute < 0) :
    (state.NeedsRotate rotate false sinceNow now = (true, none) ↔
        w.Size ≥ rotate.sizeByte)
    ∧ (state.NeedsRotate rotate false sinceNow now = (false, none) ↔
        w.Size < rotate.sizeByte)
    ∧ (rotate.sizeByte = 1024 → w.Size = 1023 →
        state.NeedsRotate rotate false sinceNow now = (false, none))
    ∧ (rotate.sizeByte = 1024 → w.Size = 1024 →
        state.NeedsRotate rotate false sinceNow now = (true, none)) := by
  have h : state.NeedsRotate rotate false sinceNow now
      = (decide (w.Size ≥ rotate.sizeByte), none) := by
    rw [NeedsRotate_thresholds state rotate sinceNow now w hw hacc hen]
    have hiff : (w.Size ≥ rotate.sizeByte
        ∨ Since sinceNow state.fileCreated ≥ rotate.timeout
        ∨ (rotate.atHour ≥ 0 ∧ rotate.atMinute ≥ 0 ∧
            state.fileCreated.Before (boundary rotate now)))
        ↔ w.Size ≥ rotate.sizeByte := by
      constructor
      · rintro (h | h | ⟨h₁, h₂, _⟩)
        · exact h
        · omega
        · omega
      · exact Or.inl
    simp only [hiff]
  rw [h]
  refine ⟨?_, ?_, ?_, ?_⟩
  · simp
  · simp
  · intro h₁ h₂
    simp [h₁, h₂]
  · intro h₁ h₂
    simp [h₁, h₂]

/-- Instance of C7 on both sides of the threshold `sizeByte = 1024`: a writer of
size 1023 is not due, a writer of size 1024 is. -/
theorem NeedsRotate_size_threshold_witness :
    (sampleState (some (sampleWriter 1023 true)) sixAM).NeedsRotate
        (samplePolicy true (-1) (-1)) false noon noon = (false, none)
    ∧ (sampleState (some (sampleWriter 1024 true)) sixAM).NeedsRotate
        (samplePolicy true (-1) (-1)) false noon noon = (true, none) :=
  ⟨(NeedsRotate_size_threshold (sampleState (some (sampleWriter 1023 true)) sixAM)
      (samplePolicy true (-1) (-1)) noon noon (sampleWriter 1023 true) rfl rfl rfl
      (by decide) (Or.inl (by decide))).2.2.1 rfl rfl,
    (NeedsRotate_size_threshold (sampleState (some (sampleWriter 1024 true)) sixAM)
      (samplePolicy true (-1) (-1)) noon noon (sampleWriter 1024 true) rfl rfl rfl
      (by decide) (Or.inl (by decide))).2.2.2 rfl rfl⟩

/-- C8, as the code has it: the daily boundary rule. For an enabled policy, a
bound accessible writer, `forceRotate = false`, size < `sizeByte` and elapsed time
< `timeout`, and `atHour` in 0..23, `atMinute` in 0..59: `NeedsRotate` returns
`(true, nil)` if and only if `fileCreated` is strictly before the instant that
`time.Date` returns for `atHour:atMinute:00` on the calendar day of the evaluation
time in its zone, and `(false, nil)` otherwise, also when `fileCreated` equals it.
Whenever that instant reads the wall clock asked for, it lies on the calendar day of
the evaluation time and reads `atHour:atMinute:00` there; it does so in every zone
without transitions, and in every ascending zone table when no transition lies
between the reading taken as a Unix second and that second less the offset in
force at it. When `atHour` or `atMinute` is negative the rule never fires. -/
theorem NeedsRotate_daily_boundary (state : FileState) (rotate : FileRotateConfig)
    (sinceNow now : Time) (w : FileStateWriter)
    (hw : state.writer = some w) (hacc : w.IsAccessible = true)
    (hen : rotate.enabled = true)
    (hsize : w.Size < rotate.sizeByte)
    (hage : Since sinceNow state.fileCreated < rotate.timeout) :
    (0 ≤ rotate.atHour ∧ rotate.atHour ≤ 23 → 0 ≤ rotate.atMinute ∧ rotate.atMinute ≤ 59 →
        boundary rotate now
          = Date now.CalendarDay rotate.atHour rotate.atMinute 0 0 now.Location
        ∧ (state.NeedsRotate rotate false sinceNow now = (true, none) ↔
            state.fileCreated.unixNano < (boundary rotate now).unixNano)
        ∧ (state.NeedsRotate rotate false sinceNow now = (false, none) ↔
            (boundary rotate now).unixNano ≤ state.fileCreated.unixNano)
        ∧ (state.fileCreated.unixNano = (boundary rotate now).unixNano →
            state.NeedsRotate rotate false sinceNow now = (false, none))
        ∧ ((boundary rotate now).localSeconds
              = wallSeconds now.CalendarDay rotate.atHour rotate.atMinute 0 →
            (boundary rotate now).loc = now.loc
            ∧ (boundary rotate now).CalendarDay = now.CalendarDay
            ∧ (boundary rotate now).Hour = rotate.atHour
            ∧ (boundary rotate now).Minute = rotate.atMinute
            ∧ (boundary rotate now).Second = 0
            ∧ (boundary rotate now).Nanosecond = 0)
        ∧ (now.loc.tx = [] →
            (boundary rotate now).localSeconds
              = wallSeconds now.CalendarDay rotate.atHour rotate.atMinute 0)
        ∧ (now.loc.tx.Pairwise (fun a b => a.when ≤ b.when) →
            ((now.loc.lookup
                (wallSeconds now.CalendarDay rotate.atHour rotate.atMinute 0)).offset = 0
              ∨ ((now.loc.lookup
                    (wallSeconds now.CalendarDay rotate.atHour rotate.atMinute 0)).start
                  ≤ wallSeconds now.CalendarDay rotate.atHour rotate.atMinute 0
                    - (now.loc.lookup
                        (wallSeconds now.CalendarDay rotate.atHour rotate.atMinute 0)).offset
                ∧ wallSeconds now.CalendarDay rotate.atHour rotate.atMinute 0
                    - (now.loc.lookup
                        (wallSeconds now.CalendarDay rotate.atHour rotate.atMinute 0)).offset
                  < (now.loc.lookup
                      (wallSeconds now.CalendarDay rotate.atHour rotate.atMinute 0)).stop)) →
            (boundary rotate now).localSeconds
              = wallSeconds now.CalendarDay rotate.atHour rotate.atMinute 0))
    ∧ (rotate.atHour < 0 ∨ rotate.atMinute < 0 →
        state.NeedsRotate rotate false sinceNow now = (false, none)) := by
  have h : state.NeedsRotate rotate false sinceNow now
      = (decide (rotate.atHour ≥ 0 ∧ rotate.atMinute ≥ 0 ∧
          state.fileCreated.unixNano < (boundary rotate now).unixNano), none) := by
    rw [NeedsRotate_thresholds state rotate sinceNow now w hw hacc hen]
    have hiff : (w.Size ≥ rotate.sizeByte
        ∨ Since sinceNow state.fileCreated ≥ rotate.timeout
        ∨ (rotate.atHour ≥ 0 ∧ rotate.atMinute ≥ 0 ∧
            state.fileCreated.Before (boundary rotate now)))
        ↔ (rotate.atHour ≥ 0 ∧ rotate.atMinute ≥ 0 ∧
            state.fileCreated.unixNano < (boundary rotate now).unixNano) := by
      constructor
      · rintro (h | h | h)
        · omega
        · omega
        · exact h
      · exact fun h => Or.inr (Or.inr h)
    simp only [hiff]
  rw [h]
  refine ⟨?_, ?_⟩
  · intro hh hm
    refine ⟨rfl, ?_, ?_, ?_, boundary_reads rotate now hh hm,
      boundary_valid_of_no_transitions rotate now,
      boundary_valid_of_same_period rotate now⟩
    · simp [hh.1, hm.1]
    · simp [hh.1, hm.1]
    · intro heq
      simp [heq]
  · intro hneg
    have : ¬ (rotate.atHour ≥ 0 ∧ rotate.atMinute ≥ 0 ∧
        state.fileCreated.unixNano < (boundary rotate now).unixNano) := by
      rintro ⟨h₁, h₂, _⟩
      omega
    simp only [this, decide_False]

/-- Instance of C8 as amended, in the zone Europe/Berlin on 2026-10-25, the day the
clocks go back, with the boundary 01:30: evaluated at 11:00 UTC the boundary
instant is 2026-10-24 23:30:00 UTC, which reads 01:30 on the day of the
evaluation, and a file created at 00:00 UTC is not due. In UTC with the boundary
06:30 evaluated at noon, a file created at 06:00 is due and a file created at
06:30:00 sharp is not. -/
theorem NeedsRotate_daily_boundary_witness :
    boundary (samplePolicy true 1 30) (instant berlin 1792926000)
      = instant berlin 1792884600
    ∧ (instant berlin 1792884600).CalendarDay = (instant berlin 1792926000).CalendarDay
    ∧ (instant berlin 1792884600).Hour = 1
    ∧ (instant berlin 1792884600).Minute = 30
    ∧ (sampleState (some (sampleWriter 0 true)) (instant berlin 1792886400)).NeedsRotate
        (samplePolicy true 1 30) false (instant berlin 1792926000)
        (instant berlin 1792926000) = (false, none)
    ∧ boundary (samplePolicy true 6 30) noon = halfPastSix
    ∧ (sampleState (some (sampleWriter 0 true)) sixAM).NeedsRotate
        (samplePolicy true 6 30) false noon noon = (true, none)
    ∧ (sampleState (some (sampleWriter 0 true)) halfPastSix).NeedsRotate
        (samplePolicy true 6 30) false noon noon = (false, none) :=
  have hb := (NeedsRotate_daily_boundary
    (sampleState (some (sampleWriter 0 true)) (instant berlin 1792886400))
    (samplePolicy true 1 30) (instant berlin 1792926000) (instant berlin 1792926000)
    (sampleWriter 0 true) rfl rfl rfl (by decide) (by decide)).1 (by decide) (by decide)
  have hreads := hb.2.2.2.2.1 (by decide)
  ⟨by decide, hreads.2.1, hreads.2.2.1, hreads.2.2.2.1, hb.2.2.1.mpr (by decide),
    by decide,
    ((NeedsRotate_daily_boundary (sampleState (some (sampleWriter 0 true)) sixAM)
      (samplePolicy true 6 30) noon noon (sampleWriter 0 true) rfl rfl rfl
      (by decide) (by decide)).1 (by decide) (by decide)).2.1.mpr (by decide),
    ((NeedsRotate_daily_boundary (sampleState (some (sampleWriter 0 true)) halfPastSix)
      (samplePolicy true 6 30) noon noon (sampleWriter 0 true) rfl rfl rfl
      (by decide) (by decide)).1 (by decide) (by decide)).2.2.2.1 (by decide)⟩

/-- C8 as stated fails: in the zone Europe/Berlin on 2026-03-29, the day the clocks
go from 02:00 to 03:00, with the boundary 02:30, no instant reads 02:30:00 on that
calendar day. Evaluated at 10:00 UTC, `time.Date` returns 01:30:00 UTC, which reads
03:30, and a file created at 01:10 UTC, which reads 03:10, is due. -/
theorem NeedsRotate_daily_boundary_skipped_counterexample :
    (sampleState (some (sampleWriter 0 true)) (instant berlin 1774746600)).NeedsRotate
        (samplePolicy true 2 30) false (instant berlin 1774778400)
        (instant berlin 1774778400) = (true, none)
    ∧ boundary (samplePolicy true 2 30) (instant berlin 1774778400)
        = instant berlin 1774747800
    ∧ (instant berlin 1774747800).Hour = 3
    ∧ (instant berlin 1774747800).Minute = 30
    ∧ (instant berlin 1774746600).Hour = 3
    ∧ (instant berlin 1774746600).Minute = 10
    ∧ ¬ ∃ b : Time, b.loc = berlin
        ∧ b.CalendarDay = (instant berlin 1774778400).CalendarDay
        ∧ b.Hour = 2 ∧ b.Minute = 30 ∧ b.Second = 0 := by
  refine ⟨?_, by decide, by decide, by decide, by decide, by decide, ?_⟩
  · rw [NeedsRotate_thresholds _ (samplePolicy true 2 30) (instant berlin 1774778400)
      (instant berlin 1774778400) (sampleWriter 0 true) rfl rfl rfl]
    decide
  · rintro ⟨b, hloc, hday, hhour, _, _⟩
    have hd : (instant berlin 1774778400).CalendarDay = 20541 := by decide
    rw [hd] at hday
    unfold Time.CalendarDay at hday
    unfold Time.Hour at hhour
    have hls : b.localSeconds = b.Unix + (berlin.lookup b.Unix).offset := by
      unfold Time.localSeconds
      rw [hloc]
    rw [hls] at hday hhour
    simp only [Location.lookup, Location.scan, berlin] at hday hhour
    split_ifs at hday hhour <;> simp only at hday hhour <;> omega

/-! ## Flush and Close -/

/-- After `MessageBatch.Flush` the queue is empty and capacity and closed flag are
as before. -/
theorem MessageBatch.Flush_batch (batch : MessageBatch) (drain : List Message → List Event) :
    (batch.Flush drain).1 = { batch with queue := [] } := by
  unfold MessageBatch.Flush
  cases hq : batch.queue with
  | nil =>
    cases batch
    simp_all
  | cons m rest => simp

/-- For a drain without effect on no messages, the effects of `MessageBatch.Flush`
are those of the drain on the pending messages. -/
theorem MessageBatch.Flush_events (batch : MessageBatch) (drain : List Message → List Event)
    (hnil : drain [] = []) : (batch.Flush drain).2 = drain batch.queue := by
  unfold MessageBatch.Flush
  cases hq : batch.queue with
  | nil => simp [hnil]
  | cons m rest => simp

/-- The Write path never closes the writer. -/
theorem WriterAssembly.Write_no_close (asm : WriterAssembly) (msgs : List Message) :
    (asm.Write msgs).countP Event.isWriterClose = 0 := by
  induction msgs with
  | nil => rfl
  | cons msg rest ih =>
    have hone : (asm.writeOne msg).countP Event.isWriterClose = 0 := by
      unfold WriterAssembly.writeOne
      split
      · split
        · split <;> rfl
        · rfl
      · rfl
    simp only [WriterAssembly.Write, List.countP_append, hone, ih]

/-- C9: `Flush` dispatches on the writer. With no writer bound the batch is drained
through the assembly's `Flush`: the effects are exactly one hand-over to the
fallback sink per pending message, in batch order, nothing reaches the Write path,
and the batch is left empty. With a writer bound the assembly is first rebound to
the state's writer and the batch is then drained through the assembly's `Write`
on that writer, and is left empty. -/
theorem Flush_dispatch (state : FileState) :
    (state.writer = none →
        state.Flush.2 = state.assembly.Flush state.batch.queue
        ∧ state.Flush.2 = state.batch.queue.map Event.Fallback
        ∧ (∀ msg, state.Flush.2.count (Event.Fallback msg) = state.batch.queue.count msg)
        ∧ state.Flush.2.countP Event.isWritePath = 0
        ∧ state.Flush.1.batch = { state.batch with queue := [] }
        ∧ state.Flush.1.writer = none)
    ∧ (∀ w, state.writer = some w →
        state.Flush.2 = Event.SetWriter w.Name ::
            (state.assembly.SetWriter w).Write state.batch.queue
        ∧ state.Flush.1.assembly.writer = some w
        ∧ state.Flush.1.assembly.modulator = state.assembly.modulator
        ∧ state.Flush.1.batch = { state.batch with queue := [] }
        ∧ state.Flush.1.writer = some w) := by
  constructor
  · intro hw
    have hev : state.Flush.2 = state.batch.queue.map Event.Fallback := by
      unfold FileState.Flush
      rw [hw]
      exact MessageBatch.Flush_events state.batch state.assembly.Flush rfl
    have hb : state.Flush.1.batch = { state.batch with queue := [] } := by
      unfold FileState.Flush
      rw [hw]
      exact MessageBatch.Flush_batch state.batch state.assembly.Flush
    have hwr : state.Flush.1.writer = none := by
      unfold FileState.Flush
      rw [hw]
    refine ⟨hev, hev, ?_, ?_, hb, hwr⟩
    · intro msg
      rw [hev]
      exact List.count_map_of_injective _ _ (fun a b h => by injection h) msg
    · rw [hev]
      induction state.batch.queue with
      | nil => rfl
      | cons m rest ih => simp [List.countP_cons, Event.isWritePath]
  · intro w hw
    have hev : state.Flush.2 = Event.SetWriter w.Name ::
        (state.assembly.SetWriter w).Write state.batch.queue := by
      unfold FileState.Flush
      rw [hw]
      show Event.SetWriter w.Name :: (state.batch.Flush (state.assembly.SetWriter w).Write).2 = _
      rw [MessageBatch.Flush_events state.batch _ rfl]
    have hb : state.Flush.1.batch = { state.batch with queue := [] } := by
      unfold FileState.Flush
      rw [hw]
      exact MessageBatch.Flush_batch state.batch _
    refine ⟨hev, ?_, ?_, hb, ?_⟩
    · unfold FileState.Flush
      rw [hw]
      rfl
    · unfold FileState.Flush
      rw [hw]
      rfl
    · unfold FileState.Flush
      rw [hw]

/-- Instance of C9 on three pending messages: without a writer each goes to the
fallback sink once; with the writer that fails on `[3]` the assembly is rebound
first and the messages then pass through `Write` in order. -/
theorem Flush_dispatch_witness :
    (pendingState none).Flush.2
      = [Event.Fallback ⟨[1, 2], 0⟩, Event.Fallback ⟨[3], 0⟩, Event.Fallback ⟨[4, 5, 6], 1⟩]
    ∧ (pendingState (some flakyWriter)).Flush.2
      = [Event.SetWriter "out.log",
          Event.Modulate ⟨[1, 2], 0⟩, Event.WriterWrite "out.log" [1, 2] true,
          Event.Modulate ⟨[3], 0⟩, Event.WriterWrite "out.log" [3] false,
          Event.Fallback ⟨[3], 0⟩,
          Event.Modulate ⟨[4, 5, 6], 1⟩, Event.WriterWrite "out.log" [4, 5, 6] true] :=
  ⟨((Flush_dispatch (pendingState none)).1 rfl).2.1,
    ((Flush_dispatch (pendingState (some flakyWriter))).2 flakyWriter rfl).1.trans
      (by decide)⟩

/-- C10: `Close` drains and closes unconditionally. For every `FileState` with a
writer bound, whatever the speed of the drain and the outcome of the writes,
`Close` returns normally; its effects are, in this order, the rebinding of the
assembly to the state's writer, the drain through the assembly's `Write` of the
pending messages reached within `flushTimeout`, and one call of the writer's
`Close()`, the only one; the batch is left closed and empty. -/
theorem Close_with_writer (state : FileState) (pace : Int → Nat) (w : FileStateWriter)
    (hw : state.writer = some w) :
    ∃ state₁ events, state.Close pace = Except.ok (state₁, events)
      ∧ events = Event.SetWriter w.Name ::
          ((state.assembly.SetWriter w).Write
              (state.batch.queue.take (pace state.flushTimeout))
            ++ [Event.WriterClose w.Name])
      ∧ events.countP Event.isWriterClose = 1
      ∧ state₁.assembly.writer = some w
      ∧ state₁.batch = { state.batch with closed := true, queue := [] }
      ∧ state₁.writer = some w := by
  have hb := MessageBatch.Flush_batch
    { state.batch with closed := true, queue := state.batch.queue.take (pace state.flushTimeout) }
    (state.assembly.SetWriter w).Write
  have he := MessageBatch.Flush_events
    { state.batch with closed := true, queue := state.batch.queue.take (pace state.flushTimeout) }
    (state.assembly.SetWriter w).Write rfl
  refine ⟨{ state with
      assembly := state.assembly.SetWriter w
      batch := { state.batch with closed := true, queue := [] } },
    Event.SetWriter w.Name ::
      ((state.assembly.SetWriter w).Write (state.batch.queue.take (pace state.flushTimeout))
        ++ [Event.WriterClose w.Name]), ?_, rfl, ?_, rfl, rfl, hw⟩
  · unfold FileState.Close MessageBatch.Close
    rw [hw]
    simp only [hb, he, hw]
    rfl
  · simp [List.countP_cons, List.countP_append, WriterAssembly.Write_no_close,
      Event.isWriterClose]

/-- Instance of C10: three pending messages, a writer that fails on `[3]`, and a
drain that gets through two messages within the timeout. The third message is not
drained and the writer is closed all the same, once. -/
theorem Close_with_writer_witness :
    (pendingState (some flakyWriter)).writer = some flakyWriter
    ∧ ∃ state₁, (pendingState (some flakyWriter)).Close (fun _ => 2)
        = Except.ok (state₁,
            [Event.SetWriter "out.log",
              Event.Modulate ⟨[1, 2], 0⟩, Event.WriterWrite "out.log" [1, 2] true,
              Event.Modulate ⟨[3], 0⟩, Event.WriterWrite "out.log" [3] false,
              Event.Fallback ⟨[3], 0⟩,
              Event.WriterClose "out.log"]) := by
  refine ⟨rfl, ?_⟩
  obtain ⟨state₁, events, hclose, hev, _⟩ :=
    Close_with_writer (pendingState (some flakyWriter)) (fun _ => 2) flakyWriter rfl
  refine ⟨state₁, ?_⟩
  rw [hclose, hev]
  rfl

/-! ## RegExp.Accepts -/

/-- C11, at the failing input: a filter with Expression and ExpressionNot both set
to the literal `a` (byte 97) and a message with the payload `a`. The payload
matches ExpressionNot, the claim has the message blocked, and `Accepts` returns
true: with Expression configured the code returns its answer and never looks at
ExpressionNot. -/
theorem Accepts_both_configured_passes :
    (literal 97).MatchString (Message.mk [97] 0).Data = true
    ∧ (RegExp.mk (some (literal 97)) (some (literal 97))).Accepts ⟨[97], 0⟩ = true := by
  decide

/-- C12: `Accepts` passes on the positive expression. For every filter with
Expression configured (ExpressionNot configured or not), `Accepts` returns true
exactly when the payload matches Expression; for a filter with neither expression
configured `Accepts` returns true for every message. -/
theorem Accepts_expression (filter : RegExp) (msg : Message) :
    (∀ exp, filter.exp = some exp →
        (filter.Accepts msg = true ↔ exp.MatchString msg.Data = true))
    ∧ (filter.exp = none → filter.expNot = none → filter.Accepts msg = true) := by
  constructor
  · intro exp hexp
    unfold RegExp.Accepts
    rw [hexp]
  · intro hexp hnot
    unfold RegExp.Accepts
    rw [hexp, hnot]

/-! ## Clear.Modulate -/

/-- C15: `Clear.Modulate` clears the payload. For every message, after `Modulate`
the payload is the empty byte sequence, the metadata is as before, and the verdict
is Continue, not Drop or Discard; applying `Modulate` to the result gives the same
message and verdict again. -/
theorem Clear_Modulate_clears (format : Clear) (msg : Message) :
    (format.Modulate msg).1.Data = []
    ∧ (format.Modulate msg).1.StreamID = msg.StreamID
    ∧ (format.Modulate msg).2 = ModulateResult.Continue
    ∧ (format.Modulate msg).2 ≠ ModulateResult.Drop
    ∧ (format.Modulate msg).2 ≠ ModulateResult.Discard
    ∧ format.Modulate (format.Modulate msg).1 = format.Modulate msg := by
  refine ⟨rfl, rfl, rfl, ?_, ?_, rfl⟩
  · simp [Clear.Modulate]
  · simp [Clear.Modulate]

/-! ## FileRotateConfig.Configure -/

/-- A decimal digit is not the separator. -/
theorem digitChar_ne_colon (n : Nat) (h : n < 10) : digitChar n ≠ ':' := by
  interval_cases n <;> decide

/-- Splitting two digits, a colon and two digits gives the two pairs of digits. -/
theorem Split_clockText (hh mm : Nat) (hh99 : hh ≤ 99) (mm99 : mm ≤ 99) :
    Split (clockText hh mm).data ':'
      = [[digitChar (hh / 10), digitChar (hh % 10)],
          [digitChar (mm / 10), digitChar (mm % 10)]] := by
  have h1 := digitChar_ne_colon (hh / 10) (by omega)
  have h2 := digitChar_ne_colon (hh % 10) (by omega)
  have h3 := digitChar_ne_colon (mm / 10) (by omega)
  have h4 := digitChar_ne_colon (mm % 10) (by omega)
  simp [clockText, Split, h1, h2, h3, h4]

/-- Two decimal digits parse to the number they write, without error. -/
theorem ParseInt_two_digits (n : Nat) (h : n ≤ 99) :
    ParseInt [digitChar (n / 10), digitChar (n % 10)] 10 8 = ((n : Int), none) := by
  interval_cases n <;> rfl

/-- C13: `Configure` derives the daily boundary from text. For every Rotation/At
value `HH:MM` of two decimal digits each with `HH ≤ 23` and `MM ≤ 59`, `Configure`
completes with `atHour = HH` and `atMinute = MM` and every other field of the
policy as before; for the empty Rotation/At it completes with the policy unchanged,
so `atHour` and `atMinute` keep their previous values. -/
theorem Configure_clock_text (rotate : FileRotateConfig) (hh mm : Nat)
    (hhour : hh ≤ 23) (hmin : mm ≤ 59) :
    rotate.Configure (clockText hh mm)
      = Except.ok { rotate with atHour := (hh : Int), atMinute := (mm : Int) }
    ∧ rotate.Configure "" = Except.ok rotate := by
  constructor
  · have hne : clockText hh mm ≠ "" := by
      intro h
      have := congrArg String.length h
      simp [clockText, String.length] at this
    unfold FileRotateConfig.Configure
    rw [if_pos hne]
    simp only [Split_clockText hh mm (by omega) (by omega), List.getElem?_cons_zero,
      List.getElem?_cons_succ, ParseInt_two_digits hh (by omega),
      ParseInt_two_digits mm (by omega)]
  · rfl

/-- Instance of C13: the text `06:30` on a policy without a boundary. -/
theorem Configure_clock_text_witness :
    clockText 6 30 = "06:30"
    ∧ (samplePolicy true (-1) (-1)).Configure "06:30" = Except.ok (samplePolicy true 6 30)
    ∧ (samplePolicy true (-1) (-1)).Configure "" = Except.ok (samplePolicy true (-1) (-1)) :=
  ⟨by decide,
    (Configure_clock_text (samplePolicy true (-1) (-1)) 6 30 (by decide) (by decide)).1,
    (Configure_clock_text (samplePolicy true (-1) (-1)) 6 30 (by decide) (by decide)).2⟩

/-- C14, at the failing inputs: the Rotation/At texts `ab:cd` (no numbers) and
`25:99` (numbers outside the range of a time of day). The claim has `Configure`
report a configuration error; `Configure` completes on both, with `atHour = 0`,
`atMinute = 0` for the first and `atHour = 25`, `atMinute = 99` for the second.
`NeedsRotate` then takes `0:0` for a configured boundary: a file created at 23:00
the evening before is due at 06:00 under the policy made from `ab:cd`, and is not
due under the policy without a boundary. -/
theorem Configure_bad_text_completes :
    (samplePolicy true (-1) (-1)).Configure "ab:cd" = Except.ok (samplePolicy true 0 0)
    ∧ (samplePolicy true (-1) (-1)).Configure "25:99" = Except.ok (samplePolicy true 25 99)
    ∧ (sampleState (some (sampleWriter 0 true)) lastNight).NeedsRotate
        (samplePolicy true 0 0) false sixAM sixAM = (true, none)
    ∧ (sampleState (some (sampleWriter 0 true)) lastNight).NeedsRotate
        (samplePolicy true (-1) (-1)) false sixAM sixAM = (false, none) := by
  refine ⟨rfl, rfl, ?_, ?_⟩
  · rw [NeedsRotate_thresholds _ (samplePolicy true 0 0) sixAM sixAM (sampleWriter 0 true)
      rfl rfl rfl]
    decide
  · rw [NeedsRotate_thresholds _ (samplePolicy true (-1) (-1)) sixAM sixAM
      (sampleWriter 0 true) rfl rfl rfl]
    decide

/-- C19, at the failing input: the Rotation/At text `1200`, which has no colon.
The claim has `Configure` terminate normally; the split gives one part and the
index `parts[1]` is out of range, so `Configure` panics. -/
theorem Configure_without_colon_panics :
    Split "1200".data ':' = ["1200".data]
    ∧ (samplePolicy true (-1) (-1)).Configure "1200"
        = Except.error "runtime error: index out of range [1] with length 1" :=
  ⟨by decide, rfl⟩

/-! ## NeedsRotate over time -/

/-- A later clock reading does not give a shorter elapsed time. -/
theorem Since_mono (s₁ s₂ t : Time) (h : s₁.unixNano ≤ s₂.unixNano) :
    Since s₁ t ≤ Since s₂ t := by
  unfold Since Time.Sub minDuration maxDuration
  simp only
  split_ifs <;> omega

/-- When today's boundary instant at the second evaluation is not earlier than at
the first and the elapsed time is read not earlier, a rotation due at the first
evaluation is due at the second. -/
theorem NeedsRotate_due_of_boundary_le (state : FileState) (rotate : FileRotateConfig)
    (forceRotate : Bool) (s₁ n₁ s₂ n₂ : Time)
    (hs : s₁.unixNano ≤ s₂.unixNano)
    (hb : (boundary rotate n₁).unixNano ≤ (boundary rotate n₂).unixNano)
    (h : state.NeedsRotate rotate forceRotate s₁ n₁ = (true, none)) :
    state.NeedsRotate rotate forceRotate s₂ n₂ = (true, none) := by
  cases hw : state.writer with
  | none => exact NeedsRotate_of_no_writer state rotate forceRotate s₂ n₂ hw
  | some w =>
    cases hacc : w.IsAccessible with
    | false =>
      rw [NeedsRotate_of_inaccessible state rotate forceRotate s₁ n₁ w hw hacc] at h
      simp at h
    | true =>
      cases hen : rotate.enabled with
      | false =>
        rw [NeedsRotate_of_disabled state rotate forceRotate s₁ n₁ w hw hacc hen] at h
        simp at h
      | true =>
        cases forceRotate with
        | true => exact NeedsRotate_of_forced state rotate s₂ n₂ w hw hacc hen
        | false =>
          rw [NeedsRotate_thresholds state rotate s₁ n₁ w hw hacc hen] at h
          rw [NeedsRotate_thresholds state rotate s₂ n₂ w hw hacc hen]
          have h₁ : w.Size ≥ rotate.sizeByte
              ∨ Since s₁ state.fileCreated ≥ rotate.timeout
              ∨ (rotate.atHour ≥ 0 ∧ rotate.atMinute ≥ 0 ∧
                  state.fileCreated.Before (boundary rotate n₁)) := by
            simpa using h
          have h₂ : w.Size ≥ rotate.sizeByte
              ∨ Since s₂ state.fileCreated ≥ rotate.timeout
              ∨ (rotate.atHour ≥ 0 ∧ rotate.atMinute ≥ 0 ∧
                  state.fileCreated.Before (boundary rotate n₂)) := by
            rcases h₁ with hsize | hage | ⟨hh, hm, hlt⟩
            · exact Or.inl hsize
            · exact Or.inr (Or.inl (le_trans hage (Since_mono s₁ s₂ state.fileCreated hs)))
            · exact Or.inr (Or.inr ⟨hh, hm, lt_of_lt_of_le hlt hb⟩)
          simp only [h₂, decide_True]

/-- C16, as the code has it: rotation stays due until the writer is replaced. For
every `FileState`, policy and `forceRotate` held fixed and every two evaluations,
the clock of the second read not earlier than that of the first: if `NeedsRotate`
returns `(true, nil)` at the first, it returns `(true, nil)` at the second,
provided today's boundary instant at the second is not earlier than today's
boundary instant at the first. That is so whenever both evaluations are in the
same zone, the calendar day of the second is not earlier than that of the first
and the offsets of the zone lie within 24 hours of each other, on either side of
a transition of the zone as well. -/
theorem NeedsRotate_stays_due (state : FileState) (rotate : FileRotateConfig)
    (forceRotate : Bool) (s₁ n₁ s₂ n₂ : Time)
    (hs : s₁.unixNano ≤ s₂.unixNano)
    (h : state.NeedsRotate rotate forceRotate s₁ n₁ = (true, none)) :
    ((boundary rotate n₁).unixNano ≤ (boundary rotate n₂).unixNano →
        state.NeedsRotate rotate forceRotate s₂ n₂ = (true, none))
    ∧ (n₁.loc = n₂.loc → n₁.CalendarDay ≤ n₂.CalendarDay →
        (∀ o ∈ n₁.loc.offsets, ∀ o₁ ∈ n₁.loc.offsets, o₁ - o ≤ 86400) →
        (boundary rotate n₁).unixNano ≤ (boundary rotate n₂).unixNano
        ∧ state.NeedsRotate rotate forceRotate s₂ n₂ = (true, none)) :=
  ⟨fun hb => NeedsRotate_due_of_boundary_le state rotate forceRotate s₁ n₁ s₂ n₂ hs hb h,
    fun hloc hday hoff =>
      ⟨boundary_mono_day rotate n₁ n₂ hloc hday hoff,
        NeedsRotate_due_of_boundary_le state rotate forceRotate s₁ n₁ s₂ n₂ hs
          (boundary_mono_day rotate n₁ n₂ hloc hday hoff) h⟩⟩

/-- Instance of C16 as amended, either side of a transition: in the zone
Europe/Berlin with the boundary 06:30, a file created on 2026-10-24 at 03:00 UTC is
due at 10:00 UTC of that day and still due on 2026-10-25 at 02:00 UTC, an hour
after the clocks went back. -/
theorem NeedsRotate_stays_due_witness :
    (instant berlin 1792836000).unixNano ≤ (instant berlin 1792893600).unixNano
    ∧ (instant berlin 1792836000).CalendarDay ≤ (instant berlin 1792893600).CalendarDay
    ∧ (instant berlin 1792836000).loc.lookup 1792836000
        ≠ (instant berlin 1792893600).loc.lookup 1792893600
    ∧ (sampleState (some (sampleWriter 0 true)) (instant berlin 1792810800)).NeedsRotate
        (samplePolicy true 6 30) false (instant berlin 1792836000)
        (instant berlin 1792836000) = (true, none)
    ∧ (sampleState (some (sampleWriter 0 true)) (instant berlin 1792810800)).NeedsRotate
        (samplePolicy true 6 30) false (instant berlin 1792893600)
        (instant berlin 1792893600) = (true, none) :=
  have h : (sampleState (some (sampleWriter 0 true)) (instant berlin 1792810800)).NeedsRotate
      (samplePolicy true 6 30) false (instant berlin 1792836000)
      (instant berlin 1792836000) = (true, none) :=
    (NeedsRotate_thresholds _ (samplePolicy true 6 30) (instant berlin 1792836000)
      (instant berlin 1792836000) (sampleWriter 0 true) rfl rfl rfl).trans (by decide)
  ⟨by decide, by decide, by decide, h,
    ((NeedsRotate_stays_due _ (samplePolicy true 6 30) false (instant berlin 1792836000)
      (instant berlin 1792836000) (instant berlin 1792893600) (instant berlin 1792893600)
      (by decide) h).2 rfl (by decide) (by decide)).2⟩

/-- C16 as stated fails: in the zone Antarctica/Casey the clocks went from 02:00 of
2010-03-05 back to 23:00 of 2010-03-04 at 15:00 UTC. With the boundary 01:00, a
file created at 14:10 UTC is due at 14:30 UTC, when the day is March 5 and today's
boundary lies ahead, and not due at 15:30 UTC, when the day is March 4 again and
today's boundary lies a day back. -/
theorem NeedsRotate_stays_due_counterexample :
    (instant casey 1267713000).unixNano ≤ (instant casey 1267716600).unixNano
    ∧ (instant casey 1267713000).loc = (instant casey 1267716600).loc
    ∧ (instant casey 1267716600).CalendarDay < (instant casey 1267713000).CalendarDay
    ∧ (boundary (samplePolicy true 1 0) (instant casey 1267716600)).unixNano
        < (boundary (samplePolicy true 1 0) (instant casey 1267713000)).unixNano
    ∧ (sampleState (some (sampleWriter 0 true)) (instant casey 1267711800)).NeedsRotate
        (samplePolicy true 1 0) false (instant casey 1267713000)
        (instant casey 1267713000) = (true, none)
    ∧ (sampleState (some (sampleWriter 0 true)) (instant casey 1267711800)).NeedsRotate
        (samplePolicy true 1 0) false (instant casey 1267716600)
        (instant casey 1267716600) = (false, none) := by
  refine ⟨by decide, rfl, by decide, by decide, ?_, ?_⟩
  · rw [NeedsRotate_thresholds _ (samplePolicy true 1 0) (instant casey 1267713000)
      (instant casey 1267713000) (sampleWriter 0 true) rfl rfl rfl]
    decide
  · rw [NeedsRotate_thresholds _ (samplePolicy true 1 0) (instant casey 1267716600)
      (instant casey 1267716600) (sampleWriter 0 true) rfl rfl rfl]
    decide

/-- C17, at the failing input: an enabled policy with `sizeByte = 1024`, a timeout
of 1440 minutes and the boundary 06:30, an accessible writer of size 0 created at
06:00, evaluated at 06:00 without a forced rotation. The claim has `(false, nil)`
at every time of day; the file is created before today's boundary, which has not
been crossed yet, and `NeedsRotate` returns `(true, nil)`. Created and evaluated at
noon, after the boundary, the same file is not due. -/
theorem NeedsRotate_fresh_file_before_boundary :
    (sampleWriter 0 true).Size = 0
    ∧ 0 < (samplePolicy true 6 30).sizeByte
    ∧ 0 < (samplePolicy true 6 30).timeout
    ∧ (sampleState (some (sampleWriter 0 true)) sixAM).fileCreated = sixAM
    ∧ (sampleState (some (sampleWriter 0 true)) sixAM).NeedsRotate
        (samplePolicy true 6 30) false sixAM sixAM = (true, none)
    ∧ (sampleState (some (sampleWriter 0 true)) noon).NeedsRotate
        (samplePolicy true 6 30) false noon noon = (false, none) := by
  refine ⟨rfl, by decide, by decide, rfl, ?_, ?_⟩
  · rw [NeedsRotate_thresholds _ (samplePolicy true 6 30) sixAM sixAM (sampleWriter 0 true)
      rfl rfl rfl]
    decide
  · rw [NeedsRotate_thresholds _ (samplePolicy true 6 30) noon noon (sampleWriter 0 true)
      rfl rfl rfl]
    decide

/-! ## Close without a writer -/

/-- With no writer bound `Close` drains the pending messages reached within
`flushTimeout` to the fallback sink and then panics on the call of `Close()` on
the nil writer. -/
theorem Close_of_no_writer (state : FileState) (pace : Int → Nat)
    (hw : state.writer = none) :
    ∃ p, state.Close pace = Except.error p
      ∧ p.events = (state.batch.queue.take (pace state.flushTimeout)).map Event.Fallback
      ∧ p.state.batch = { state.batch with closed := true, queue := [] } := by
  have hb := MessageBatch.Flush_batch
    { state.batch with closed := true, queue := state.batch.queue.take (pace state.flushTimeout) }
    state.assembly.Flush
  have he := MessageBatch.Flush_events
    { state.batch with closed := true, queue := state.batch.queue.take (pace state.flushTimeout) }
    state.assembly.Flush rfl
  refine ⟨⟨"runtime error: invalid memory address or nil pointer dereference",
    { state with batch := { state.batch with closed := true, queue := [] } },
    (state.batch.queue.take (pace state.flushTimeout)).map Event.Fallback⟩, ?_, rfl, rfl⟩
  unfold FileState.Close MessageBatch.Close
  rw [hw]
  simp only [hb, he, hw]
  rfl

/-- C18, at the failing input: the state returned by `NewFileState`, and a state
without a writer that has three messages pending. The claim has `Close` return
normally without a call of `Close()` on the absent writer; the drain through the
assembly's `Flush` does happen (each pending message goes to the fallback sink),
and then `Close` panics on the nil writer instead of returning. -/
theorem Close_without_writer_panics :
    (NewFileState 8 passAll (5 * Second)).writer = none
    ∧ (∃ p, (NewFileState 8 passAll (5 * Second)).Close (fun _ => 3) = Except.error p
        ∧ p.message = "runtime error: invalid memory address or nil pointer dereference"
        ∧ p.events = [])
    ∧ (pendingState none).writer = none
    ∧ (∃ p, (pendingState none).Close (fun _ => 3) = Except.error p
        ∧ p.message = "runtime error: invalid memory address or nil pointer dereference"
        ∧ p.events = [Event.Fallback ⟨[1, 2], 0⟩, Event.Fallback ⟨[3], 0⟩,
            Event.Fallback ⟨[4, 5, 6], 1⟩]) :=
  ⟨rfl, ⟨_, rfl, rfl, rfl⟩, rfl, ⟨_, rfl, rfl, rfl⟩⟩

end Gollum
